import Mathlib

/-!
# Verification of the `rate_limiter` Go package

Shallow embedding of `rate_limiter.go` (a GCRA-based distributed rate
limiter over a Redis-like store), together with theorems about the claims
of its specification.

Modelling conventions:
* Go `time.Duration` is an `int64` count of nanoseconds; we embed it as
  `Int` (the programs here never approach the 64-bit bounds).
* The Redis client and network are external; calls that talk to the store
  are embedded as pure functions parameterised by the store reply.  The
  reply of the rate-limit scripts, after `AsFloatSlice`, is an
  `Except String (List ℚ)`: either a transport/parse error or a list of
  numbers.  The float values the scripts produce are exact decimals, so we
  carry them as rationals.
* Go slice indexing `result[i]` panics when out of bounds; the outcome of
  a façade call is therefore a three-way `CallOutcome`: an error, a panic,
  or a `Result`.
* `haxmap.Map[string, Limit]` is embedded as an association list with
  exact-match lookup; a nil map pointer is `none`.
-/

namespace RateLimiter

/-- `const redisPrefix = "rl:"` -/
def redisPrefix : String := "rl:"

/-- Go `time.Duration`: a signed count of nanoseconds. -/
abbrev Duration := Int

def nanosecond : Duration := 1
def second : Duration := 1000000000

/-- `type Limit struct { Rate int; Burst int; Period time.Duration }` -/
structure Limit where
  rate : Int
  burst : Int
  period : Duration
deriving DecidableEq, Repr

/-- `func PerSecond(rate int) Limit` -/
def PerSecond (rate : Int) : Limit := { rate := rate, period := second, burst := rate }

/-- `type Result struct { Limit; Allowed; Remaining; RetryAfter; ResetAfter }` -/
structure Result where
  limit : Limit
  allowed : Int
  remaining : Int
  retryAfter : Duration
  resetAfter : Duration
deriving DecidableEq, Repr

/-- `type Limiter struct` — the `rdb` client field is external state and is
not part of the pure value; `keyPrefix` embeds the Go field `prefix`
(`prefix` is a reserved word in Lean). -/
structure Limiter where
  limit : Limit
  customLimits : Option (List (String × Limit))
  keyPrefix : String
deriving DecidableEq, Repr

/-- `type LimiterOption func(*Limiter)` -/
abbrev LimiterOption := Limiter → Limiter

/-- `func WithCustomLimits(limits *haxmap.Map[string, Limit]) LimiterOption` -/
def WithCustomLimits (limits : List (String × Limit)) : LimiterOption :=
  fun l => { l with customLimits := some limits }

/-- `func WithRateLimit(limit Limit) LimiterOption` -/
def WithRateLimit (limit : Limit) : LimiterOption :=
  fun l => { l with limit := limit }

/-- `func WithPrefix(prefix string) LimiterOption` -/
def WithPrefix (p : String) : LimiterOption :=
  fun l => { l with keyPrefix := p }

/-- `func defaultLimits() Limit` -/
def defaultLimits : Limit := { burst := 1, rate := 1, period := second }

/-- `func NewLimiter(rdb rueidis.Client, opts ...LimiterOption) *Limiter` -/
def NewLimiter (opts : List LimiterOption) : Limiter :=
  let limiter : Limiter :=
    opts.foldl (fun l opt => opt l)
      { limit := defaultLimits, customLimits := none, keyPrefix := redisPrefix }
  match limiter.customLimits with
  | none => { limiter with customLimits := some [] }
  | some _ => limiter

/-- The limit AllowN actually uses: `limit := l.limit; if cl, ok :=
l.customLimits.Get(key); ok { limit = cl }`.  (A limiter built by
`NewLimiter` always has a non-nil map; for a nil map the lookup finds
nothing.) -/
def effectiveLimit (l : Limiter) (key : String) : Limit :=
  match l.customLimits.bind (fun m => List.lookup key m) with
  | some cl => cl
  | none => l.limit

/-- `limit.Period.Seconds()` as an exact rational: nanoseconds / 10⁹. -/
def periodSeconds (p : Duration) : ℚ :=
  (p : ℚ) / 1000000000

/-- The numeric value of the decimal string
`strconv.FormatFloat(limit.Period.Seconds(), 'f', 2, 32)`: the period in
seconds rounded to two fraction digits (centiseconds).  Modelled over exact
rationals; the intermediate float32 has error far below the two-digit
rounding granularity for realistic periods, and at exact half-centisecond
ties it lies above the decimal value, so ties round up. -/
def serializedPeriod (p : Duration) : ℚ :=
  (⌊periodSeconds p * 100 + 1 / 2⌋ : ℚ) / 100

/-- The script invocation the Go code builds: the Redis key list and the
numeric values denoted by the argument strings
`[Itoa(burst), Itoa(rate), FormatFloat(period.Seconds(), 'f', 2, 32), Itoa(n)]`. -/
structure ScriptCall where
  keys : List String
  args : List ℚ
deriving DecidableEq, Repr

/-- The call `allowN.Exec(ctx, l.rdb, []string{redisPrefix + key}, values)`
built by `AllowN` — note the key uses the package constant `redisPrefix`,
not `l.prefix`. -/
def allowNCall (l : Limiter) (key : String) (n : Int) : ScriptCall :=
  let limit := effectiveLimit l key
  { keys := [redisPrefix ++ key]
  , args := [(limit.burst : ℚ), (limit.rate : ℚ), serializedPeriod limit.period, (n : ℚ)] }

/-- The call `allowAtMost.Exec(ctx, l.rdb, []string{redisPrefix + key}, values)`
built by `AllowAtMost` (which takes its Limit as an explicit argument). -/
def allowAtMostCall (_l : Limiter) (key : String) (limit : Limit) (n : Int) : ScriptCall :=
  { keys := [redisPrefix ++ key]
  , args := [(limit.burst : ℚ), (limit.rate : ℚ), serializedPeriod limit.period, (n : ℚ)] }

/-- Go's float64 → int conversion: truncation toward zero. -/
def ratTrunc (q : ℚ) : Int := Int.tdiv q.num (q.den : Int)

/-- `func dur(f float64) time.Duration` -/
def dur (f : ℚ) : Duration :=
  if f = -1 then -1 else ratTrunc (f * 1000000000)

/-- Outcome of a façade call against the store: a propagated error
(`result, err := ...; if err != nil { return nil, err }`), a runtime panic
(out-of-bounds slice index), or a returned `Result`. -/
inductive CallOutcome (α : Type) where
  | err : String → CallOutcome α
  | panicked : CallOutcome α
  | ok : α → CallOutcome α
deriving DecidableEq, Repr

/-- `func (l Limiter) AllowN(ctx, key, n) (*Result, error)`, as a function
of the store reply (the value of `....AsFloatSlice()`).  The Go body reads
`result[0] .. result[3]` unconditionally, which panics when the parsed
reply has fewer than four numbers. -/
def AllowN (l : Limiter) (key : String) (n : Int)
    (reply : Except String (List ℚ)) : CallOutcome Result :=
  let limit := effectiveLimit l key
  match reply with
  | .error e => .err e
  | .ok result =>
    if h : 4 ≤ result.length then
      .ok { limit := limit
          , allowed := ratTrunc (result.get ⟨0, by omega⟩)
          , remaining := ratTrunc (result.get ⟨1, by omega⟩)
          , retryAfter := dur (result.get ⟨2, by omega⟩)
          , resetAfter := dur (result.get ⟨3, by omega⟩) }
    else .panicked

/-- `func (l Limiter) Allow(ctx, key) (*Result, error)` — a shortcut for
`AllowN(ctx, key, 1)`. -/
def Allow (l : Limiter) (key : String)
    (reply : Except String (List ℚ)) : CallOutcome Result :=
  AllowN l key 1 reply

/-- `func (l Limiter) AllowAtMost(ctx, key, limit, n) (*Result, error)`,
as a function of the store reply. -/
def AllowAtMost (l : Limiter) (key : String) (limit : Limit) (n : Int)
    (reply : Except String (List ℚ)) : CallOutcome Result :=
  match reply with
  | .error e => .err e
  | .ok result =>
    if h : 4 ≤ result.length then
      .ok { limit := limit
          , allowed := ratTrunc (result.get ⟨0, by omega⟩)
          , remaining := ratTrunc (result.get ⟨1, by omega⟩)
          , retryAfter := dur (result.get ⟨2, by omega⟩)
          , resetAfter := dur (result.get ⟨3, by omega⟩) }
    else .panicked

/-- The store's per-key persisted state (the GCRA theoretical arrival time),
as a partial map from stored key to value. -/
abbrev Store := String → Option ℚ

/-- Redis `DEL key`: removes the key; deleting an absent key is a no-op
(the reply is just a count). -/
def delKey (store : Store) (k : String) : Store :=
  fun x => if x = k then none else store x

/-- `func (l *Limiter) Reset(ctx, key) error` — builds `DEL redisPrefix+key`
and returns its error.  `DEL` itself never fails, so with the transport
out of the pure model the returned error is `none`; the first component is
the store after the call. -/
def Reset (_l : Limiter) (store : Store) (key : String) : Store × Option String :=
  (delKey store (redisPrefix ++ key), none)

/-- Output of one atomic engine decision: the four numeric reply fields
plus the theoretical arrival time left in the store. -/
structure EngineOut where
  allowed : Int
  remaining : Int
  retryAfter : ℚ
  resetAfter : ℚ
  tatAfter : ℚ
deriving DecidableEq, Repr

/-- Clamp an integer to `[lo, hi]`. -/
def clampInt (x lo hi : Int) : Int := max lo (min hi x)

/-- Modelled from the spec: the GCRA decision engine behind `allowN` — the
server-side Lua script is not among the provided sources, only its caller
is.  Spec §4.1: `emission_interval = period / rate`,
`delay_variation_tolerance = emission_interval * burst`; an absent stored
TAT reads as `now`; the candidate `new_tat = max(TAT, now) +
emission_interval * n`; admit in full iff
`new_tat - delay_variation_tolerance ≤ now`, leaving the stored TAT
untouched on denial; `remaining = floor((tolerance - (final_tat - now)) /
emission_interval)` clamped to `[0, burst]`; `retry_after` is the sentinel
`-1` when admitted and `allow_at - now` when denied; `reset_after =
max(0, final_tat - now)`. -/
def gcraDecide (tat? : Option ℚ) (burst rate : Int) (period : ℚ) (n : Int)
    (now : ℚ) : EngineOut :=
  let ei := period / (rate : ℚ)
  let dvt := ei * (burst : ℚ)
  let tat := tat?.getD now
  let newTat := max tat now + ei * (n : ℚ)
  let allowAt := newTat - dvt
  if allowAt ≤ now then
    { allowed := n
    , remaining := clampInt ⌊(dvt - (newTat - now)) / ei⌋ 0 burst
    , retryAfter := -1
    , resetAfter := max 0 (newTat - now)
    , tatAfter := newTat }
  else
    { allowed := 0
    , remaining := clampInt ⌊(dvt - (tat - now)) / ei⌋ 0 burst
    , retryAfter := allowAt - now
    , resetAfter := max 0 (tat - now)
    , tatAfter := tat }

/-- Modelled from the spec: the GCRA engine behind `allowAtMost` — the Lua
script is not among the provided sources.  Spec §4.1, AllowAtMost variant:
admit the largest `k ≤ n` passing the admission test, in closed form
`k = floor((now + delay_variation_tolerance - max(TAT, now)) /
emission_interval)` clamped to `[0, n]`; the other fields follow the same
rules as `gcraDecide` applied to the `k` admitted cells. -/
def gcraAllowAtMost (tat? : Option ℚ) (burst rate : Int) (period : ℚ) (n : Int)
    (now : ℚ) : EngineOut :=
  let ei := period / (rate : ℚ)
  let dvt := ei * (burst : ℚ)
  let tat := tat?.getD now
  let tat0 := max tat now
  let k := clampInt ⌊(now + dvt - tat0) / ei⌋ 0 n
  let newTat := tat0 + ei * (k : ℚ)
  { allowed := k
  , remaining := clampInt ⌊(dvt - (newTat - now)) / ei⌋ 0 burst
  , retryAfter := if k < n then (tat0 + ei * (n : ℚ) - dvt) - now else -1
  , resetAfter := max 0 (newTat - now)
  , tatAfter := newTat }

/-! ## Helper lemmas -/

theorem gcraDecide_allowed_eq (tat? : Option ℚ) (burst rate : Int) (period : ℚ)
    (n : Int) (now : ℚ) :
    (gcraDecide tat? burst rate period n now).allowed
      = if max (tat?.getD now) now + period / (rate : ℚ) * (n : ℚ)
            - period / (rate : ℚ) * (burst : ℚ) ≤ now
        then n else 0 := by
  simp only [gcraDecide, apply_ite EngineOut.allowed]

theorem gcraDecide_tatAfter_eq (tat? : Option ℚ) (burst rate : Int) (period : ℚ)
    (n : Int) (now : ℚ) :
    (gcraDecide tat? burst rate period n now).tatAfter
      = if max (tat?.getD now) now + period / (rate : ℚ) * (n : ℚ)
            - period / (rate : ℚ) * (burst : ℚ) ≤ now
        then max (tat?.getD now) now + period / (rate : ℚ) * (n : ℚ)
        else tat?.getD now := by
  simp only [gcraDecide, apply_ite EngineOut.tatAfter]

theorem gcraAllowAtMost_allowed_eq (tat? : Option ℚ) (burst rate : Int)
    (period : ℚ) (n : Int) (now : ℚ) :
    (gcraAllowAtMost tat? burst rate period n now).allowed
      = clampInt ⌊(now + period / (rate : ℚ) * (burst : ℚ)
            - max (tat?.getD now) now) / (period / (rate : ℚ))⌋ 0 n := rfl

theorem ratTrunc_nonneg (q : ℚ) (h : 0 ≤ q) : 0 ≤ ratTrunc q :=
  Int.tdiv_nonneg (Rat.num_nonneg.mpr h) (Int.natCast_nonneg _)

theorem dur_sentinel (f : ℚ) (h : f = -1 ∨ 0 ≤ f) :
    (dur f = -1 ↔ f = -1) ∧
    (f ≠ -1 → dur f = ratTrunc (f * 1000000000) ∧ 0 ≤ dur f) := by
  rcases h with h | h
  · subst h
    simp [dur]
  · have hne : f ≠ -1 := by
      intro hf
      rw [hf] at h
      norm_num at h
    have hd : dur f = ratTrunc (f * 1000000000) := by rw [dur, if_neg hne]
    have hnn : 0 ≤ dur f := by
      rw [hd]
      exact ratTrunc_nonneg _ (mul_nonneg h (by norm_num))
    exact ⟨⟨fun hd1 => by rw [hd1] at hnn; exact absurd hnn (by norm_num),
      fun hf => absurd hf hne⟩, fun _ => ⟨hd, hnn⟩⟩

/-! ## Claim theorems -/

/-- C1: the claim says a limiter constructed with `WithPrefix(p)` persists
under the key `p ++ key`.  The code does set the limiter's prefix field,
but every store access (`AllowN`, `AllowAtMost`, `Reset`) builds its key
from the package constant `redisPrefix = "rl:"` and never reads the field:
with `WithPrefix "app:"` the stored key for caller key `"k"` is `"rl:k"`,
not `"app:k"`. -/
theorem c1_with_prefix_ignored :
    (NewLimiter [WithPrefix "app:"]).keyPrefix = "app:" ∧
    (allowNCall (NewLimiter [WithPrefix "app:"]) "k" 1).keys = ["rl:k"] ∧
    (allowAtMostCall (NewLimiter [WithPrefix "app:"]) "k" defaultLimits 1).keys
      = ["rl:k"] ∧
    (Reset (NewLimiter [WithPrefix "app:"]) (fun _ => some 1) "k").1 "rl:k"
      = none ∧
    (Reset (NewLimiter [WithPrefix "app:"]) (fun _ => some 1) "k").1 "app:k"
      = some 1 ∧
    (allowNCall (NewLimiter [WithPrefix "app:"]) "k" 1).keys ≠ ["app:" ++ "k"] := by
  refine ⟨rfl, rfl, rfl, rfl, rfl, by decide⟩

/-- C6: `Allow` returns exactly the result of `AllowN` with quantity 1, for
every limiter, key and store reply. -/
theorem c6_allow_is_allowN_one (l : Limiter) (key : String)
    (reply : Except String (List ℚ)) :
    Allow l key reply = AllowN l key 1 reply := rfl

/-- C7: `Reset` deletes the key's persisted state unconditionally and
returns no error; on a key with no stored state it is a no-op. -/
theorem c7_reset_unconditional (l : Limiter) (store : Store) (key : String) :
    (Reset l store key).2 = none ∧
    (Reset l store key).1 (redisPrefix ++ key) = none ∧
    (store (redisPrefix ++ key) = none → (Reset l store key).1 = store) := by
  refine ⟨rfl, by simp [Reset, delKey], fun h => funext fun x => ?_⟩
  by_cases hx : x = redisPrefix ++ key
  · subst hx
    simp [Reset, delKey, h]
  · simp [Reset, delKey, hx]

/-- Witness for C7 at a concrete limiter, an empty store and key `"k"`. -/
theorem c7_reset_unconditional_witness :
    (Reset (NewLimiter []) (fun _ => none) "k").2 = none ∧
    (Reset (NewLimiter []) (fun _ => none) "k").1 = (fun _ => none) :=
  ⟨(c7_reset_unconditional (NewLimiter []) (fun _ => none) "k").1,
   (c7_reset_unconditional (NewLimiter []) (fun _ => none) "k").2.2 rfl⟩

/-- C8: when the store interaction fails, both `AllowN` and `AllowAtMost`
return no `Result` and propagate the error verbatim — the error is never
mapped to an allow or deny outcome. -/
theorem c8_error_propagated_verbatim (l : Limiter) (key : String) (lim : Limit)
    (n : Int) (e : String) :
    AllowN l key n (.error e) = .err e ∧
    AllowAtMost l key lim n (.error e) = .err e := ⟨rfl, rfl⟩

/-- C9: a reply that parses as a float slice with fewer than four elements
makes `AllowN` and `AllowAtMost` panic on the unconditional index accesses
`result[0] .. result[3]` (an out-of-bounds slice index, not a returned
error). -/
theorem c9_short_reply_panics (l : Limiter) (key : String) (lim : Limit)
    (n : Int) (r : List ℚ) (h : r.length < 4) :
    AllowN l key n (.ok r) = .panicked ∧
    AllowAtMost l key lim n (.ok r) = .panicked := by
  constructor
  · simp only [AllowN]
    rw [dif_neg (by omega)]
  · simp only [AllowAtMost]
    rw [dif_neg (by omega)]

/-- Witness for C9 at a three-element reply. -/
theorem c9_short_reply_panics_witness :
    AllowN (NewLimiter []) "k" 1 (.ok [1, 2, 3]) = .panicked ∧
    AllowAtMost (NewLimiter []) "k" defaultLimits 1 (.ok [1, 2, 3]) = .panicked :=
  c9_short_reply_panics (NewLimiter []) "k" defaultLimits 1 [1, 2, 3] (by norm_num)

/-- C2: each `AllowN` call chooses exactly one `Limit` — the per-key
override when the custom-limits map has an entry for the exact key,
otherwise the process-wide default — and that single limit supplies the
burst, rate and period of the script call and is `Result.Limit` on
success. -/
theorem c2_single_limit_chosen (l : Limiter) (key : String) (n : Int)
    (a0 a1 a2 a3 : ℚ) (rest : List ℚ) :
    (∀ cl, l.customLimits.bind (fun m => List.lookup key m) = some cl →
      effectiveLimit l key = cl) ∧
    (l.customLimits.bind (fun m => List.lookup key m) = none →
      effectiveLimit l key = l.limit) ∧
    (allowNCall l key n).args
      = [((effectiveLimit l key).burst : ℚ), ((effectiveLimit l key).rate : ℚ),
         serializedPeriod (effectiveLimit l key).period, (n : ℚ)] ∧
    ∃ res, AllowN l key n (.ok (a0 :: a1 :: a2 :: a3 :: rest)) = .ok res ∧
      res.limit = effectiveLimit l key := by
  refine ⟨fun cl hcl => ?_, fun hnone => ?_, rfl, ?_⟩
  · unfold effectiveLimit
    rw [hcl]
  · unfold effectiveLimit
    rw [hnone]
  · refine ⟨⟨effectiveLimit l key, ratTrunc a0, ratTrunc a1, dur a2, dur a3⟩,
      ?_, rfl⟩
    simp only [AllowN]
    rw [dif_pos (by simp)]
    rfl

/-- Witness for C2: a limiter with a per-key override for `"k"` resolves
that override, and a successful call carries it in `Result.Limit`. -/
theorem c2_single_limit_chosen_witness :
    effectiveLimit (NewLimiter [WithCustomLimits [("k", PerSecond 5)]]) "k"
      = PerSecond 5 ∧
    ∃ res, AllowN (NewLimiter [WithCustomLimits [("k", PerSecond 5)]]) "k" 2
        (.ok [2, 3, -1, 1]) = .ok res ∧
      res.limit = effectiveLimit (NewLimiter [WithCustomLimits [("k", PerSecond 5)]]) "k" :=
  ⟨(c2_single_limit_chosen (NewLimiter [WithCustomLimits [("k", PerSecond 5)]])
      "k" 2 2 3 (-1) 1 []).1 (PerSecond 5) rfl,
   (c2_single_limit_chosen (NewLimiter [WithCustomLimits [("k", PerSecond 5)]])
      "k" 2 2 3 (-1) 1 []).2.2.2⟩

/-- C5: on a successful call, `RetryAfter` is the `-1` sentinel exactly
when the reply's retry-after field is `-1`, and otherwise is that many
seconds converted to a (non-negative) duration; the identical conversion
produces `ResetAfter` from the fourth field, in both `AllowN` and
`AllowAtMost`. -/
theorem c5_sentinel_and_seconds_conversion (l : Limiter) (key : String)
    (lim : Limit) (n : Int) (a0 a1 a2 a3 : ℚ) (rest : List ℚ)
    (h2 : a2 = -1 ∨ 0 ≤ a2) (h3 : a3 = -1 ∨ 0 ≤ a3) :
    ∃ res res',
      AllowN l key n (.ok (a0 :: a1 :: a2 :: a3 :: rest)) = .ok res ∧
      AllowAtMost l key lim n (.ok (a0 :: a1 :: a2 :: a3 :: rest)) = .ok res' ∧
      res.retryAfter = dur a2 ∧ res.resetAfter = dur a3 ∧
      res'.retryAfter = dur a2 ∧ res'.resetAfter = dur a3 ∧
      (res.retryAfter = -1 ↔ a2 = -1) ∧
      (a2 ≠ -1 → res.retryAfter = ratTrunc (a2 * 1000000000) ∧ 0 ≤ res.retryAfter) ∧
      (res.resetAfter = -1 ↔ a3 = -1) ∧
      (a3 ≠ -1 → res.resetAfter = ratTrunc (a3 * 1000000000) ∧ 0 ≤ res.resetAfter) := by
  refine ⟨⟨effectiveLimit l key, ratTrunc a0, ratTrunc a1, dur a2, dur a3⟩,
    ⟨lim, ratTrunc a0, ratTrunc a1, dur a2, dur a3⟩, ?_, ?_, rfl, rfl, rfl, rfl,
    (dur_sentinel a2 h2).1, (dur_sentinel a2 h2).2, (dur_sentinel a3 h3).1,
    (dur_sentinel a3 h3).2⟩
  · simp only [AllowN]
    rw [dif_pos (by simp)]
    rfl
  · simp only [AllowAtMost]
    rw [dif_pos (by simp)]
    rfl

/-- Witness for C5 at a reply whose retry-after is the sentinel and whose
reset-after is 5 seconds. -/
theorem c5_sentinel_and_seconds_conversion_witness :
    ∃ res res',
      AllowN (NewLimiter []) "k" 1 (.ok [1, 0, -1, 5]) = .ok res ∧
      AllowAtMost (NewLimiter []) "k" defaultLimits 1 (.ok [1, 0, -1, 5]) = .ok res' ∧
      res.retryAfter = dur (-1) ∧ res.resetAfter = dur 5 ∧
      res'.retryAfter = dur (-1) ∧ res'.resetAfter = dur 5 ∧
      (res.retryAfter = -1 ↔ (-1 : ℚ) = -1) ∧
      ((-1 : ℚ) ≠ -1 → res.retryAfter = ratTrunc (-1 * 1000000000) ∧ 0 ≤ res.retryAfter) ∧
      (res.resetAfter = -1 ↔ (5 : ℚ) = -1) ∧
      ((5 : ℚ) ≠ -1 → res.resetAfter = ratTrunc (5 * 1000000000) ∧ 0 ≤ res.resetAfter) :=
  c5_sentinel_and_seconds_conversion (NewLimiter []) "k" defaultLimits 1
    1 0 (-1) 5 [] (Or.inl rfl) (Or.inr (by norm_num))

/-- C3 counterexample: the period is serialized with two fraction digits,
not millisecond resolution.  A `Limit` with the millisecond-exact period
1ms (10⁶ ns) has true period 1/1000 s, but the value passed to the atomic
transaction is 0 — the claim "the serialized period equals the true period
for every millisecond-exact period" is false. -/
theorem c3_millisecond_period_truncated :
    periodSeconds 1000000 = 1 / 1000 ∧
    serializedPeriod 1000000 = 0 ∧
    serializedPeriod 1000000 ≠ periodSeconds 1000000 ∧
    (allowNCall (NewLimiter [WithRateLimit ⟨1, 1, 1000000⟩]) "k" 1).args
      = [1, 1, 0, 1] := by
  have hl : effectiveLimit (NewLimiter [WithRateLimit ⟨1, 1, 1000000⟩]) "k"
      = ⟨1, 1, 1000000⟩ := rfl
  have hs : serializedPeriod 1000000 = 0 := by
    norm_num [serializedPeriod, periodSeconds]
  refine ⟨by norm_num [periodSeconds], hs,
    by rw [hs]; norm_num [periodSeconds], ?_⟩
  simp only [allowNCall, hl, hs]
  norm_num

/-- C3 amended: the serialized period has centisecond (two fraction digit)
resolution — every period that is a whole number of centiseconds (a
multiple of 10⁷ ns) is serialized exactly; finer (e.g. millisecond-exact)
periods are rounded. -/
theorem c3_centisecond_periods_serialized_exactly (p : Duration)
    (h : (10000000 : Int) ∣ p) : serializedPeriod p = periodSeconds p := by
  obtain ⟨c, rfl⟩ := h
  unfold serializedPeriod periodSeconds
  have h1 : ((10000000 * c : Int) : ℚ) / 1000000000 * 100 = (c : ℚ) := by
    push_cast
    field_simp
    ring
  rw [h1]
  have h2 : ⌊(c : ℚ) + 1 / 2⌋ = c := by
    rw [Int.floor_int_add]
    norm_num
  rw [h2]
  push_cast
  field_simp
  ring

/-- Witness for the amended C3 at the 20 ms period. -/
theorem c3_centisecond_periods_witness :
    (10000000 : Int) ∣ 20000000 ∧
    serializedPeriod 20000000 = periodSeconds 20000000 :=
  ⟨by norm_num, c3_centisecond_periods_serialized_exactly 20000000 (by norm_num)⟩

/-- Core arithmetic of the GCRA at-most admission: with emission interval
`ei > 0`, tolerance `dvt`, a state `tat0 = max(TAT, now) ≤ now + dvt` and
requested `n ≥ 1`, the closed-form count `k = clamp(⌊(now + dvt - tat0) /
ei⌋, 0, n)` lies in `[0, n]`, passes the admission test itself, and is
strictly below `n` whenever `n` fails the admission test. -/
theorem gcra_core (ei dvt tat0 now : ℚ) (n : Int)
    (hei : 0 < ei) (hn : 1 ≤ n) (h0 : tat0 ≤ now + dvt) :
    0 ≤ clampInt ⌊(now + dvt - tat0) / ei⌋ 0 n ∧
    clampInt ⌊(now + dvt - tat0) / ei⌋ 0 n ≤ n ∧
    tat0 + ei * ((clampInt ⌊(now + dvt - tat0) / ei⌋ 0 n : Int) : ℚ) - dvt ≤ now ∧
    (now < tat0 + ei * (n : ℚ) - dvt → clampInt ⌊(now + dvt - tat0) / ei⌋ 0 n < n) := by
  set q : ℚ := (now + dvt - tat0) / ei with hq
  have hne : ei ≠ 0 := hei.ne'
  have hq0 : 0 ≤ q := div_nonneg (by linarith) hei.le
  have hfl0 : 0 ≤ ⌊q⌋ := Int.floor_nonneg.mpr hq0
  have hmin : 0 ≤ min n ⌊q⌋ := le_min (by omega) hfl0
  have hk : clampInt ⌊q⌋ 0 n = min n ⌊q⌋ := max_eq_right hmin
  have h3 : ei * q = now + dvt - tat0 := by
    rw [hq, mul_comm, div_mul_cancel₀ _ hne]
  refine ⟨?_, ?_, ?_, ?_⟩
  · rw [hk]
    exact hmin
  · rw [hk]
    exact min_le_left _ _
  · rw [hk]
    have h1 : ((min n ⌊q⌋ : Int) : ℚ) ≤ q :=
      le_trans (by exact_mod_cast min_le_right n ⌊q⌋) (Int.floor_le q)
    have h2 : ei * ((min n ⌊q⌋ : Int) : ℚ) ≤ ei * q :=
      mul_le_mul_of_nonneg_left h1 hei.le
    linarith
  · intro hlt
    have h4 : ei * q < ei * (n : ℚ) := by linarith
    have h5 : q < (n : ℚ) := lt_of_mul_lt_mul_left h4 hei.le
    have h6 : ⌊q⌋ < n := Int.floor_lt.mpr h5
    rw [hk]
    omega

/-- C4 (engine modelled from the spec; the Lua scripts are not among the
sources): from any reachable state (`TAT ≤ now + tolerance`) with a valid
limit and `n ≥ 1`, `gcraAllowAtMost` admits `k` with `0 ≤ k ≤ n`, never
more than an exact `gcraDecide` of the same quantity `k` would admit, and
when `gcraDecide` would deny the full `n` it admits some `k < n`. -/
theorem c4_allow_at_most_bounds (tat? : Option ℚ) (burst rate n : Int)
    (period now : ℚ) (hb : 1 ≤ burst) (hr : 1 ≤ rate) (hp : 0 < period)
    (hn : 1 ≤ n)
    (hinv : tat?.getD now ≤ now + period / (rate : ℚ) * (burst : ℚ)) :
    0 ≤ (gcraAllowAtMost tat? burst rate period n now).allowed ∧
    (gcraAllowAtMost tat? burst rate period n now).allowed ≤ n ∧
    (gcraDecide tat? burst rate period
        ((gcraAllowAtMost tat? burst rate period n now).allowed) now).allowed
      = (gcraAllowAtMost tat? burst rate period n now).allowed ∧
    ((gcraDecide tat? burst rate period n now).allowed = 0 →
      (gcraAllowAtMost tat? burst rate period n now).allowed < n) := by
  have hrq : (0 : ℚ) < (rate : ℚ) := by exact_mod_cast (by omega : (0 : Int) < rate)
  have hei : 0 < period / (rate : ℚ) := div_pos hp hrq
  have hbq : (0 : ℚ) ≤ (burst : ℚ) := by exact_mod_cast (by omega : (0 : Int) ≤ burst)
  have hdvt : 0 ≤ period / (rate : ℚ) * (burst : ℚ) := mul_nonneg hei.le hbq
  have h0 : max (tat?.getD now) now ≤ now + period / (rate : ℚ) * (burst : ℚ) :=
    max_le hinv (le_add_of_nonneg_right hdvt)
  obtain ⟨g1, g2, g3, g4⟩ :=
    gcra_core (period / (rate : ℚ)) (period / (rate : ℚ) * (burst : ℚ))
      (max (tat?.getD now) now) now n hei hn h0
  rw [gcraAllowAtMost_allowed_eq]
  refine ⟨g1, g2, ?_, ?_⟩
  · rw [gcraDecide_allowed_eq, if_pos g3]
  · intro hden
    rw [gcraDecide_allowed_eq] at hden
    by_cases hc : max (tat?.getD now) now + period / (rate : ℚ) * (n : ℚ)
        - period / (rate : ℚ) * (burst : ℚ) ≤ now
    · rw [if_pos hc] at hden
      omega
    · exact g4 (by push_neg at hc; linarith)

/-- Witness for C4 on a fresh key with the default limit. -/
theorem c4_allow_at_most_bounds_witness :
    0 ≤ (gcraAllowAtMost none 1 1 1 1 0).allowed ∧
    (gcraAllowAtMost none 1 1 1 1 0).allowed ≤ 1 ∧
    (gcraDecide none 1 1 1
        ((gcraAllowAtMost none 1 1 1 1 0).allowed) 0).allowed
      = (gcraAllowAtMost none 1 1 1 1 0).allowed ∧
    ((gcraDecide none 1 1 1 1 0).allowed = 0 →
      (gcraAllowAtMost none 1 1 1 1 0).allowed < 1) :=
  c4_allow_at_most_bounds none 1 1 1 1 0 le_rfl le_rfl one_pos le_rfl (by simp)

/-- C10: `NewLimiter` with no options has the default limit of rate 1 and
burst 1 per one-second period, the `"rl:"` prefix and a non-nil empty
custom-limits map; that period serializes as exactly 1 s, and (engine
modelled from the spec) under this limit an admitted `Allow` forces any
further `Allow` within the next second to be denied — at most one event
per second per key. -/
theorem c10_new_limiter_defaults :
    (NewLimiter []).limit = { rate := 1, burst := 1, period := second } ∧
    (NewLimiter []).keyPrefix = "rl:" ∧
    (NewLimiter []).customLimits = some [] ∧
    serializedPeriod (NewLimiter []).limit.period = 1 ∧
    (∀ (tat? : Option ℚ) (t1 t2 : ℚ),
      (gcraDecide tat? 1 1 1 1 t1).allowed = 1 →
      t1 ≤ t2 → t2 < t1 + 1 →
      (gcraDecide (some ((gcraDecide tat? 1 1 1 1 t1).tatAfter)) 1 1 1 1 t2).allowed
        = 0) := by
  refine ⟨rfl, rfl, rfl,
    by show serializedPeriod second = 1; norm_num [serializedPeriod, periodSeconds, second],
    ?_⟩
  intro tat? t1 t2 h1 h12 h21
  rw [gcraDecide_allowed_eq] at h1
  rw [gcraDecide_allowed_eq, gcraDecide_tatAfter_eq]
  norm_num at h1 ⊢
  rw [if_pos h1, max_eq_right h1]
  exact h21

/-- Witness for C10's admission consequence: a fresh key admitted at time
0 is denied at time 1/2. -/
theorem c10_new_limiter_defaults_witness :
    (gcraDecide none 1 1 1 1 0).allowed = 1 ∧
    (gcraDecide (some ((gcraDecide none 1 1 1 1 0).tatAfter)) 1 1 1 1 (1/2)).allowed
      = 0 :=
  ⟨by rw [gcraDecide_allowed_eq]; norm_num,
   c10_new_limiter_defaults.2.2.2.2 none 0 (1/2)
     (by rw [gcraDecide_allowed_eq]; norm_num) (by norm_num) (by norm_num)⟩

end RateLimiter
